import Mathlib

/-- JSON values as produced by serde_json for the types in commands.rs.
Only the fragment needed there is modelled: strings, unsigned numbers,
arrays and objects (with field order significant, as serde emits and
expects declaration order). -/
inductive Json where
  | str : String → Json
  | num : Nat → Json
  | arr : List Json → Json
  | obj : List (String × Json) → Json

/-- Modelled from the spec: a correlation identifier is "a 128-bit
universally unique value" (uuid::Uuid, crate not included in src/).
Modelled as a natural number below 2^128. -/
def Uuid : Type := {n : Nat // n < 2 ^ 128}

instance : DecidableEq Uuid := fun a b => by
  unfold Uuid; infer_instance

/-- Lowercase hex digit character for a value below 16, as used by the
canonical hyphenated rendering of a Uuid. -/
def hexChar (d : Nat) : Char :=
  if d < 10 then Char.ofNat (48 + d) else Char.ofNat (87 + d)

/-- Inverse of hexChar: numeric value of a lowercase hex digit. -/
def hexVal (c : Char) : Option Nat :=
  if 48 ≤ c.toNat ∧ c.toNat ≤ 57 then some (c.toNat - 48)
  else if 97 ≤ c.toNat ∧ c.toNat ≤ 102 then some (c.toNat - 87)
  else none

/-- Big-endian list of 32 hex digit characters of a 128-bit value. -/
def uuidChars (n : Nat) : List Char :=
  ((Nat.digits 16 n ++ List.replicate (32 - (Nat.digits 16 n).length) 0).map hexChar).reverse

/-- Inserts the canonical 8-4-4-4-12 hyphens into a 32-character list. -/
def hyphenate (cs : List Char) : List Char :=
  cs.take 8 ++ '-' :: ((cs.drop 8).take 4) ++ '-' :: ((cs.drop 12).take 4)
    ++ '-' :: ((cs.drop 16).take 4) ++ '-' :: (cs.drop 20)

/-- Modelled from the spec: Uuid.hyphenated().to_string(), the canonical
hyphenated lowercase-hex 128-bit form (uuid crate, not included in src/). -/
def uuidRender (u : Uuid) : String :=
  String.mk (hyphenate (uuidChars u.val))

/-- Reads each character of a candidate hex string. -/
def allHex : List Char → Option (List Nat)
  | [] => some []
  | c :: rest =>
    match hexVal c, allHex rest with
    | some d, some ds => some (d :: ds)
    | _, _ => none

/-- Modelled from the spec: parsing a Uuid back from its canonical
hyphenated form (uuid crate, not included in src/).  Hyphens are
skipped, the 32 hex digits are read back big-endian. -/
def uuidParse (s : String) : Option Uuid :=
  match allHex (s.toList.filter (fun c => c ≠ '-')) with
  | some ds =>
    if ds.length = 32 then
      if h : Nat.ofDigits 16 ds.reverse < 2 ^ 128 then
        some ⟨Nat.ofDigits 16 ds.reverse, h⟩
      else none
    else none
  | none => none

/-- Modelled from the spec: SimBrokerSettings lives in
src/util/src/trading/broker (not included in src/); the spec does not
enumerate its fields, so it is modelled as a settings record with a
single integer field, serialized as a one-field JSON object. -/
structure SimBrokerSettings where
  starting_balance : Nat
deriving DecidableEq

/-- Where to save the recorded ticks to (enum HistTickDst). -/
inductive HistTickDst where
  | Flatfile (filename : String)
  | Postgres (table : String)
  | RedisChannel (host : String) (channel : String)
  | RedisSet (host : String) (set_name : String)
  | Console
deriving DecidableEq

/-- Represents a Command that can be serde'd and sent over Redis
(enum Command in commands.rs). -/
inductive Command where
  | Ping
  | Shutdown
  | Kill
  | Register (channel : String)
  | Type
  | Ready (instance_type : String) (uuid : Uuid)
  | AddSMA (period : Nat)
  | RemoveSMA (period : Nat)
  | SpawnMM
  | Census
  | SpawnOptimizer (strategy : String)
  | SpawnTickParser (symbol : String)
  | SpawnBacktester
  | SpawnFxcmDataDownloader
  | KillInstance (uuid : Uuid)
  | KillAllInstances
  | StartBacktest (definition : String)
  | PauseBacktest (uuid : Uuid)
  | ResumeBacktest (uuid : Uuid)
  | StopBacktest (uuid : Uuid)
  | ListBacktests
  | ListSimbrokers
  | SpawnSimbroker (settings : SimBrokerSettings)
  | DownloadTicks (start_time : String) (end_time : String) (symbol : String)
      (dst : HistTickDst)
  | ListRunningDownloads
  | DownloadComplete (start_time : String) (end_time : String) (symbol : String)
      (dst : HistTickDst)
deriving DecidableEq

/-- Represents a response from the Tick Processor to a Command
(enum Response in commands.rs). -/
inductive Response where
  | Ok
  | Error (status : String)
  | Pong (args : List String)
  | Info (info : String)
deriving DecidableEq

/-- A command bound to a unique identifier (struct WrappedCommand). -/
structure WrappedCommand where
  uuid : Uuid
  cmd : Command
deriving DecidableEq

/-- A Response bound to a UUID (struct WrappedResponse). -/
structure WrappedResponse where
  uuid : Uuid
  res : Response
deriving DecidableEq

/-- Creates a new WrappedResponse from a Response and a Uuid
(Response::wrap). -/
def Response.wrap (r : Response) (uuid : Uuid) : WrappedResponse :=
  { uuid := uuid, res := r }

/-- Serde JSON form of a Uuid field (serialized as its canonical
hyphenated string). -/
def Uuid.toJson (u : Uuid) : Json := Json.str (uuidRender u)

/-- Reads a Uuid back from its JSON form. -/
def Uuid.fromJson (j : Json) : Option Uuid :=
  match j with
  | Json.str s => uuidParse s
  | _ => none

/-- Serde's externally tagged encoding of SimBrokerSettings. -/
def SimBrokerSettings.toJson (s : SimBrokerSettings) : Json :=
  Json.obj [("starting_balance", Json.num s.starting_balance)]

/-- Decoder for SimBrokerSettings. -/
def SimBrokerSettings.fromJson (j : Json) : Option SimBrokerSettings :=
  match j with
  | Json.obj [("starting_balance", Json.num n)] => some ⟨n⟩
  | _ => none

/-- Serde's externally tagged encoding of HistTickDst: unit variants
become bare tag strings, struct variants one-key objects. -/
def HistTickDst.toJson : HistTickDst → Json
  | HistTickDst.Flatfile filename =>
      Json.obj [("Flatfile", Json.obj [("filename", Json.str filename)])]
  | HistTickDst.Postgres table =>
      Json.obj [("Postgres", Json.obj [("table", Json.str table)])]
  | HistTickDst.RedisChannel host channel =>
      Json.obj [("RedisChannel", Json.obj [("host", Json.str host), ("channel", Json.str channel)])]
  | HistTickDst.RedisSet host set_name =>
      Json.obj [("RedisSet", Json.obj [("host", Json.str host), ("set_name", Json.str set_name)])]
  | HistTickDst.Console => Json.str "Console"

/-- Decoder for HistTickDst; unknown variants or extra fields are
rejected. -/
def HistTickDst.fromJson : Json → Option HistTickDst
  | Json.obj [("Flatfile", Json.obj [("filename", Json.str filename)])] =>
      some (HistTickDst.Flatfile filename)
  | Json.obj [("Postgres", Json.obj [("table", Json.str table)])] =>
      some (HistTickDst.Postgres table)
  | Json.obj [("RedisChannel", Json.obj [("host", Json.str host), ("channel", Json.str channel)])] =>
      some (HistTickDst.RedisChannel host channel)
  | Json.obj [("RedisSet", Json.obj [("host", Json.str host), ("set_name", Json.str set_name)])] =>
      some (HistTickDst.RedisSet host set_name)
  | Json.str "Console" => some HistTickDst.Console
  | _ => none

/-- Serde's externally tagged encoding of Command
(Command::to_string modelled at the JSON value level). -/
def Command.toJson : Command → Json
  | Command.Ping => Json.str "Ping"
  | Command.Shutdown => Json.str "Shutdown"
  | Command.Kill => Json.str "Kill"
  | Command.Register channel =>
      Json.obj [("Register", Json.obj [("channel", Json.str channel)])]
  | Command.Type => Json.str "Type"
  | Command.Ready instance_type uuid =>
      Json.obj [("Ready", Json.obj [("instance_type", Json.str instance_type),
        ("uuid", uuid.toJson)])]
  | Command.AddSMA period =>
      Json.obj [("AddSMA", Json.obj [("period", Json.num period)])]
  | Command.RemoveSMA period =>
      Json.obj [("RemoveSMA", Json.obj [("period", Json.num period)])]
  | Command.SpawnMM => Json.str "SpawnMM"
  | Command.Census => Json.str "Census"
  | Command.SpawnOptimizer strategy =>
      Json.obj [("SpawnOptimizer", Json.obj [("strategy", Json.str strategy)])]
  | Command.SpawnTickParser symbol =>
      Json.obj [("SpawnTickParser", Json.obj [("symbol", Json.str symbol)])]
  | Command.SpawnBacktester => Json.str "SpawnBacktester"
  | Command.SpawnFxcmDataDownloader => Json.str "SpawnFxcmDataDownloader"
  | Command.KillInstance uuid =>
      Json.obj [("KillInstance", Json.obj [("uuid", uuid.toJson)])]
  | Command.KillAllInstances => Json.str "KillAllInstances"
  | Command.StartBacktest definition =>
      Json.obj [("StartBacktest", Json.obj [("definition", Json.str definition)])]
  | Command.PauseBacktest uuid =>
      Json.obj [("PauseBacktest", Json.obj [("uuid", uuid.toJson)])]
  | Command.ResumeBacktest uuid =>
      Json.obj [("ResumeBacktest", Json.obj [("uuid", uuid.toJson)])]
  | Command.StopBacktest uuid =>
      Json.obj [("StopBacktest", Json.obj [("uuid", uuid.toJson)])]
  | Command.ListBacktests => Json.str "ListBacktests"
  | Command.ListSimbrokers => Json.str "ListSimbrokers"
  | Command.SpawnSimbroker settings =>
      Json.obj [("SpawnSimbroker", Json.obj [("settings", settings.toJson)])]
  | Command.DownloadTicks start_time end_time symbol dst =>
      Json.obj [("DownloadTicks", Json.obj [("start_time", Json.str start_time),
        ("end_time", Json.str end_time), ("symbol", Json.str symbol),
        ("dst", dst.toJson)])]
  | Command.ListRunningDownloads => Json.str "ListRunningDownloads"
  | Command.DownloadComplete start_time end_time symbol dst =>
      Json.obj [("DownloadComplete", Json.obj [("start_time", Json.str start_time),
        ("end_time", Json.str end_time), ("symbol", Json.str symbol),
        ("dst", dst.toJson)])]

/-- Decoder for Command (Command::from_str modelled at the JSON value
level); unknown variants or extra fields yield none. -/
def Command.fromJson : Json → Option Command
  | Json.str "Ping" => some Command.Ping
  | Json.str "Shutdown" => some Command.Shutdown
  | Json.str "Kill" => some Command.Kill
  | Json.obj [("Register", Json.obj [("channel", Json.str channel)])] =>
      some (Command.Register channel)
  | Json.str "Type" => some Command.Type
  | Json.obj [("Ready", Json.obj [("instance_type", Json.str instance_type),
      ("uuid", ju)])] =>
      (Uuid.fromJson ju).map (fun u => Command.Ready instance_type u)
  | Json.obj [("AddSMA", Json.obj [("period", Json.num period)])] =>
      some (Command.AddSMA period)
  | Json.obj [("RemoveSMA", Json.obj [("period", Json.num period)])] =>
      some (Command.RemoveSMA period)
  | Json.str "SpawnMM" => some Command.SpawnMM
  | Json.str "Census" => some Command.Census
  | Json.obj [("SpawnOptimizer", Json.obj [("strategy", Json.str strategy)])] =>
      some (Command.SpawnOptimizer strategy)
  | Json.obj [("SpawnTickParser", Json.obj [("symbol", Json.str symbol)])] =>
      some (Command.SpawnTickParser symbol)
  | Json.str "SpawnBacktester" => some Command.SpawnBacktester
  | Json.str "SpawnFxcmDataDownloader" => some Command.SpawnFxcmDataDownloader
  | Json.obj [("KillInstance", Json.obj [("uuid", ju)])] =>
      (Uuid.fromJson ju).map Command.KillInstance
  | Json.str "KillAllInstances" => some Command.KillAllInstances
  | Json.obj [("StartBacktest", Json.obj [("definition", Json.str definition)])] =>
      some (Command.StartBacktest definition)
  | Json.obj [("PauseBacktest", Json.obj [("uuid", ju)])] =>
      (Uuid.fromJson ju).map Command.PauseBacktest
  | Json.obj [("ResumeBacktest", Json.obj [("uuid", ju)])] =>
      (Uuid.fromJson ju).map Command.ResumeBacktest
  | Json.obj [("StopBacktest", Json.obj [("uuid", ju)])] =>
      (Uuid.fromJson ju).map Command.StopBacktest
  | Json.str "ListBacktests" => some Command.ListBacktests
  | Json.str "ListSimbrokers" => some Command.ListSimbrokers
  | Json.obj [("SpawnSimbroker", Json.obj [("settings", js)])] =>
      (SimBrokerSettings.fromJson js).map Command.SpawnSimbroker
  | Json.obj [("DownloadTicks", Json.obj [("start_time", Json.str start_time),
      ("end_time", Json.str end_time), ("symbol", Json.str symbol), ("dst", jd)])] =>
      (HistTickDst.fromJson jd).map (Command.DownloadTicks start_time end_time symbol)
  | Json.str "ListRunningDownloads" => some Command.ListRunningDownloads
  | Json.obj [("DownloadComplete", Json.obj [("start_time", Json.str start_time),
      ("end_time", Json.str end_time), ("symbol", Json.str symbol), ("dst", jd)])] =>
      (HistTickDst.fromJson jd).map (Command.DownloadComplete start_time end_time symbol)
  | _ => none

/-- Serde's externally tagged encoding of Response
(Response::to_string modelled at the JSON value level). -/
def Response.toJson : Response → Json
  | Response.Ok => Json.str "Ok"
  | Response.Error status =>
      Json.obj [("Error", Json.obj [("status", Json.str status)])]
  | Response.Pong args =>
      Json.obj [("Pong", Json.obj [("args", Json.arr (args.map Json.str))])]
  | Response.Info info =>
      Json.obj [("Info", Json.obj [("info", Json.str info)])]

/-- Reads back a list of JSON strings (serde Vec<String>). -/
def stringsFromJson : List Json → Option (List String)
  | [] => some []
  | Json.str s :: rest => (stringsFromJson rest).map (fun ss => s :: ss)
  | _ => none

/-- Decoder for Response (Response::from_str modelled at the JSON value
level). -/
def Response.fromJson : Json → Option Response
  | Json.str "Ok" => some Response.Ok
  | Json.obj [("Error", Json.obj [("status", Json.str status)])] =>
      some (Response.Error status)
  | Json.obj [("Pong", Json.obj [("args", Json.arr jargs)])] =>
      (stringsFromJson jargs).map Response.Pong
  | Json.obj [("Info", Json.obj [("info", Json.str info)])] =>
      some (Response.Info info)
  | _ => none

/-- Encoding of a wrapped command envelope
{"uuid": ..., "cmd": ...}. -/
def WrappedCommand.toJson (wc : WrappedCommand) : Json :=
  Json.obj [("uuid", wc.uuid.toJson), ("cmd", wc.cmd.toJson)]

/-- Decoder for the wrapped command envelope
(WrappedCommand::from_str modelled at the JSON value level). -/
def WrappedCommand.fromJson : Json → Option WrappedCommand
  | Json.obj [("uuid", ju), ("cmd", jc)] =>
    match Uuid.fromJson ju, Command.fromJson jc with
    | some u, some c => some { uuid := u, cmd := c }
    | _, _ => none
  | _ => none

/-- Encoding of a wrapped response envelope
{"uuid": ..., "res": ...}. -/
def WrappedResponse.toJson (wr : WrappedResponse) : Json :=
  Json.obj [("uuid", wr.uuid.toJson), ("res", wr.res.toJson)]

/-- Decoder for the wrapped response envelope. -/
def WrappedResponse.fromJson : Json → Option WrappedResponse
  | Json.obj [("uuid", ju), ("res", jr)] =>
    match Uuid.fromJson ju, Response.fromJson jr with
    | some u, some r => some { uuid := u, res := r }
    | _, _ => none
  | _ => none

/-- Modelled from the spec: Tick from src/util/src/trading/tick.rs (not
included in src/): integer bid, ask and timestamp fields. -/
structure Tick where
  bid : Nat
  ask : Nat
  timestamp : Nat
deriving DecidableEq

/-- Integer-divided mid price (bid + ask) / 2 (Tick::mid, per spec). -/
def Tick.mid (t : Tick) : Nat := (t.bid + t.ask) / 2

/-- Sentinel null tick with bid = 0 (Tick::null, per spec). -/
def Tick.null : Tick := { bid := 0, ask := 0, timestamp := 0 }

/-- What kind of method used to time the output of data
(enum BacktestType). -/
inductive BacktestType where
  | Fast (delay_ms : Nat)
  | Live
deriving DecidableEq

/-- Where to get the data to drive the backtest (enum DataSource). -/
inductive DataSource where
  | Flatfile
  | RedisChannel (host : String) (channel : String)
  | Postgres
  | Random
deriving DecidableEq

/-- Where to send the backtest's generated data (enum DataDest). -/
inductive DataDest where
  | RedisChannel (host : String) (channel : String)
  | Console
  | Null
  | SimBroker (uuid : Uuid)
deriving DecidableEq

/-- Modelled from the spec: BacktestDefinition is declared in
backtester/src/backtest.rs (not included in src/); its fields follow
spec section 3 and their uses in backtester/src/main.rs. -/
structure BacktestDefinition where
  start_time : Option Nat
  max_tick_n : Option Nat
  max_timestamp : Option Nat
  symbol : String
  backtest_type : BacktestType
  data_source : DataSource
  data_dest : DataDest
  broker_settings : SimBrokerSettings
deriving DecidableEq

/-- Returns true if the backtest has met a stop condition
(check_early_exit in backtester/src/main.rs; the && short-circuit means
unwrap only runs on a Some, so getD never supplies its default). -/
def check_early_exit (t : Tick) (defn : BacktestDefinition) (i : Nat) : Bool :=
  if defn.max_tick_n.isSome && decide (defn.max_tick_n.getD 0 ≤ i) then
    true
  else if defn.max_timestamp.isSome && decide (defn.max_timestamp.getD 0 ≤ t.timestamp) then
    true
  else
    false

/-- Ticks delivered to the sink by the pump loop of start_backtest:
for each stream tick the counter is incremented, the tick is sent to
the sink, and then the exit predicate is checked; the loop stops after
the tick that satisfies it. -/
def deliveredTicks (defn : BacktestDefinition) (i : Nat) : List Tick → List Tick
  | [] => []
  | t :: rest =>
    t :: (if check_early_exit t defn (i + 1) then []
          else deliveredTicks defn (i + 1) rest)

/-- Rust panics reachable in the SMA code, modelled as error values:
the out-of-order assert, an unwrap of an empty deque, and an integer
division by zero. -/
inductive PanicReason where
  | assertOutOfOrder
  | unwrapEmpty
  | divideByZero
deriving DecidableEq

/-- struct SimpleMovingAverage; the VecDeque is modelled as a list with
its front at the head. -/
structure SimpleMovingAverage where
  period : Nat
  ticks : List Tick
  ref_tick : Tick
deriving DecidableEq

/-- SimpleMovingAverage::new. -/
def SimpleMovingAverage.new (period : Nat) : SimpleMovingAverage :=
  { period := period, ticks := [], ref_tick := Tick.null }

/-- is_overflown over a given deque: the time between the newest and
the oldest retained tick reaches the period.  The source unwraps
front/back; the callers below only apply it to a non-empty deque, and
the trim loop models the empty-deque unwrap as its own panic. -/
def spanReached (period : Nat) (ticks : List Tick) : Bool :=
  match ticks.head?, ticks.getLast? with
  | some f, some b => decide (period ≤ b.timestamp - f.timestamp)
  | _, _ => false

/-- SimpleMovingAverage::is_overflown. -/
def SimpleMovingAverage.is_overflown (s : SimpleMovingAverage) : Bool :=
  spanReached s.period s.ticks

/-- SimpleMovingAverage::trim as a loop over the deque: while
is_overflown, pop the front and remember it; returns the last popped
tick (initially Tick::null) together with the remaining deque.
Popping the deque empty makes the next is_overflown check unwrap None,
modelled as the unwrapEmpty panic. -/
def trimLoop (period : Nat) : List Tick → Tick → Except PanicReason (Tick × List Tick)
  | [], _ => Except.error PanicReason.unwrapEmpty
  | f :: rest, lastPopped =>
    if spanReached period (f :: rest) then trimLoop period rest f
    else Except.ok (lastPopped, f :: rest)

/-- Adjacent-pair sums of the average loop: walking the deque oldest to
newest, the first component accumulates older.mid * (newer.ts -
older.ts) and the second the same time differences. -/
def pairSums : List Tick → Nat × Nat
  | a :: b :: rest =>
    let s := pairSums (b :: rest)
    (s.1 + a.mid * (b.timestamp - a.timestamp), s.2 + (b.timestamp - a.timestamp))
  | _ => (0, 0)

/-- SimpleMovingAverage::average: weighted price sum over time sum,
folding in the reference tick when its bid is non-zero; the source
unwraps the front (empty deque panics) and Rust division by zero
panics. -/
def SimpleMovingAverage.average (s : SimpleMovingAverage) : Except PanicReason Nat :=
  match s.ticks.head? with
  | none => Except.error PanicReason.unwrapEmpty
  | some _ =>
    let sums := pairSums s.ticks
    let psum := if s.ref_tick.bid ≠ 0 then sums.1 + (s.period - sums.2) * s.ref_tick.mid
                else sums.1
    let tsum := if s.ref_tick.bid ≠ 0 then s.period else sums.2
    if tsum = 0 then Except.error PanicReason.divideByZero
    else Except.ok (psum / tsum)

/-- The in-order assert condition at the top of push and push_tick:
when a previous tick exists, the new timestamp must be strictly
larger. -/
def SimpleMovingAverage.inOrder (s : SimpleMovingAverage) (t : Tick) : Bool :=
  match s.ticks.getLast? with
  | some last => decide (last.timestamp < t.timestamp)
  | none => true

/-- SimpleMovingAverage::push: assert in-order, push_back, trim when
overflown (updating ref_tick to the last trimmed tick), then return
the single retained tick's mid or the average. -/
def SimpleMovingAverage.push (s : SimpleMovingAverage) (t : Tick) :
    Except PanicReason (Nat × SimpleMovingAverage) :=
  if s.inOrder t then
    let ticks1 := s.ticks ++ [t]
    let afterTrim : Except PanicReason (Tick × List Tick) :=
      if spanReached s.period ticks1 then trimLoop s.period ticks1 Tick.null
      else Except.ok (s.ref_tick, ticks1)
    match afterTrim with
    | Except.error e => Except.error e
    | Except.ok (ref1, ticks2) =>
      let s1 : SimpleMovingAverage :=
        { period := s.period, ticks := ticks2, ref_tick := ref1 }
      if ticks2.length = 1 then
        match ticks2.head? with
        | some front => Except.ok (front.mid, s1)
        | none => Except.error PanicReason.unwrapEmpty
      else
        match s1.average with
        | Except.error e => Except.error e
        | Except.ok v => Except.ok (v, s1)
  else Except.error PanicReason.assertOutOfOrder

/-- Adjacent-pair sums of the average_tick loop: bid sum, ask sum and
time sum. -/
def pairSums3 : List Tick → Nat × Nat × Nat
  | a :: b :: rest =>
    let s := pairSums3 (b :: rest)
    (s.1 + a.bid * (b.timestamp - a.timestamp),
     s.2.1 + a.ask * (b.timestamp - a.timestamp),
     s.2.2 + (b.timestamp - a.timestamp))
  | _ => (0, 0, 0)

/-- SimpleMovingAverage::average_tick: the same formula applied to bid
and ask separately, with the newest retained timestamp. -/
def SimpleMovingAverage.average_tick (s : SimpleMovingAverage) : Except PanicReason Tick :=
  match s.ticks.head? with
  | none => Except.error PanicReason.unwrapEmpty
  | some _ =>
    match s.ticks.getLast? with
    | none => Except.error PanicReason.unwrapEmpty
    | some back =>
      let sums := pairSums3 s.ticks
      let bidSum := if s.ref_tick.bid ≠ 0 then sums.1 + (s.period - sums.2.2) * s.ref_tick.bid
                    else sums.1
      let askSum := if s.ref_tick.bid ≠ 0 then sums.2.1 + (s.period - sums.2.2) * s.ref_tick.ask
                    else sums.2.1
      let tsum := if s.ref_tick.bid ≠ 0 then s.period else sums.2.2
      if tsum = 0 then Except.error PanicReason.divideByZero
      else Except.ok { bid := bidSum / tsum, ask := askSum / tsum, timestamp := back.timestamp }

/-- SimpleMovingAverage::push_tick: same flow as push, returning a
synthetic averaged tick. -/
def SimpleMovingAverage.push_tick (s : SimpleMovingAverage) (t : Tick) :
    Except PanicReason (Tick × SimpleMovingAverage) :=
  if s.inOrder t then
    let ticks1 := s.ticks ++ [t]
    let afterTrim : Except PanicReason (Tick × List Tick) :=
      if spanReached s.period ticks1 then trimLoop s.period ticks1 Tick.null
      else Except.ok (s.ref_tick, ticks1)
    match afterTrim with
    | Except.error e => Except.error e
    | Except.ok (ref1, ticks2) =>
      let s1 : SimpleMovingAverage :=
        { period := s.period, ticks := ticks2, ref_tick := ref1 }
      if ticks2.length = 1 then
        match ticks2.head? with
        | some front => Except.ok (front, s1)
        | none => Except.error PanicReason.unwrapEmpty
      else
        match s1.average_tick with
        | Except.error e => Except.error e
        | Except.ok v => Except.ok (v, s1)
  else Except.error PanicReason.assertOutOfOrder

/-- struct SMAList. -/
structure SMAList where
  smas : List SimpleMovingAverage
deriving DecidableEq

/-- SMAList::new. -/
def SMAList.new : SMAList := { smas := [] }

/-- SMAList::add pushes a fresh SMA onto the end of the vector. -/
def SMAList.add (l : SMAList) (period : Nat) : SMAList :=
  { smas := l.smas ++ [SimpleMovingAverage.new period] }

/-- The index loop of SMAList::remove: delete the first SMA whose
period matches and return immediately. -/
def removeFirstPeriod (period : Nat) :
    List SimpleMovingAverage → List SimpleMovingAverage
  | [] => []
  | s :: rest =>
    if s.period = period then rest else s :: removeFirstPeriod period rest

/-- SMAList::remove; a missing period only logs a warning. -/
def SMAList.remove (l : SMAList) (period : Nat) : SMAList :=
  { smas := removeFirstPeriod period l.smas }

/-- Spec-side formula of the claim: the weighted price sum over
adjacent window pairs stated via zip. -/
def specPSum (window : List Tick) : Nat :=
  ((window.zip window.tail).map
    (fun p => p.1.mid * (p.2.timestamp - p.1.timestamp))).sum

/-- Spec-side formula of the claim: sum of the adjacent time
differences. -/
def specTSum (window : List Tick) : Nat :=
  ((window.zip window.tail).map
    (fun p => p.2.timestamp - p.1.timestamp)).sum

/-- A sequence of push / push_tick calls against one SMA, each entry
choosing the call (true selects push_tick) and the tick; the returned
averages are discarded and any panic propagates. -/
def SimpleMovingAverage.runCalls (s : SimpleMovingAverage) :
    List (Bool × Tick) → Except PanicReason SimpleMovingAverage
  | [] => Except.ok s
  | (useTickForm, t) :: rest =>
    match (if useTickForm then (s.push_tick t).map (fun p => p.2)
           else (s.push t).map (fun p => p.2)) with
    | Except.error e => Except.error e
    | Except.ok s1 => s1.runCalls rest

/-- Modelled from the spec: control events sent to a running backtest
(enum BacktestCommand in backtester/src/backtest.rs, not included:
Pause, Resume, Stop). -/
inductive BacktestCommand where
  | Pause
  | Resume
  | Stop
deriving DecidableEq

/-- A registered backtest handle (struct BacktestHandle): the spawning
parameters; its control channel sender is modelled through the
backtester state's control log. -/
structure BacktestHandle where
  symbol : String
  backtest_type : BacktestType
  data_source : DataSource
  endpoint : DataDest
deriving DecidableEq

/-- External effects of the backtester that happen outside this model,
supplied as oracles: the serde parse of a definition string, the
tickstream creation of resolve_data_source/TickGenerator::get, the
serde serialization used by ListBacktests and ListSimbrokers, and the
Uuid::new_v4 supply. -/
structure BtEnv where
  parseDef : String → Except String BacktestDefinition
  tickstream : BacktestDefinition → Except String Unit
  serHandles : List (Uuid × BacktestHandle) → Except Unit String
  serStrings : List String → String
  fresh : Uuid

/-- The mutable state of the Backtester: its own id, the running
backtest handle map and the simbroker map (association lists standing
in for the HashMaps, whose keys are freshly minted and thus unique),
plus the log of control events sent into handle channels. -/
structure BacktesterState where
  uuid : Uuid
  running_backtests : List (Uuid × BacktestHandle)
  simbrokers : List (Uuid × SimBrokerSettings)
  controlLog : List (Uuid × BacktestCommand)

/-- Backtester::init_simbroker: registers a SimBroker (represented by
its settings) under a fresh id. -/
def init_simbroker (env : BtEnv) (s : BacktesterState) (settings : SimBrokerSettings) :
    Uuid × BacktesterState :=
  (env.fresh, { s with simbrokers := s.simbrokers ++ [(env.fresh, settings)] })

/-- Backtester::start_backtest: create the tickstream (external),
resolve the destination (a SimBroker destination requires a registered
simbroker; the pump task's sink output is modelled by deliveredTicks),
then register a handle under a fresh id. -/
def start_backtest (env : BtEnv) (s : BacktesterState) (defn : BacktestDefinition) :
    Except String Uuid × BacktesterState :=
  match env.tickstream defn with
  | Except.error e => (Except.error ("Error creating tickstream: " ++ e), s)
  | Except.ok _ =>
    let handle : BacktestHandle :=
      { symbol := defn.symbol, backtest_type := defn.backtest_type,
        data_source := defn.data_source, endpoint := defn.data_dest }
    match defn.data_dest with
    | DataDest.SimBroker u =>
      match s.simbrokers.lookup u with
      | none => (Except.error "No SimBroker running with that Uuid!", s)
      | some _ =>
        (Except.ok env.fresh,
         { s with running_backtests := s.running_backtests ++ [(env.fresh, handle)] })
    | _ =>
      (Except.ok env.fresh,
       { s with running_backtests := s.running_backtests ++ [(env.fresh, handle)] })

/-- Backtester::remove_backtest: deregister the handle from the
running backtest map. -/
def remove_backtest (s : BacktesterState) (uuid : Uuid) : BacktesterState :=
  { s with running_backtests :=
      s.running_backtests.filter (fun kv => kv.1 ≠ uuid) }

/-- Backtester::send_backtest_cmd: look up the handle and send the
control event into its channel (modelled by appending to the control
log); a missing handle is Err(()). -/
def send_backtest_cmd (s : BacktesterState) (uuid : Uuid) (cmd : BacktestCommand) :
    Except Unit BacktesterState :=
  match s.running_backtests.lookup uuid with
  | none => Except.error ()
  | some _ => Except.ok { s with controlLog := s.controlLog ++ [(uuid, cmd)] }

/-- The dispatch of Backtester::listen: the response computed for one
inbound command together with the state afterwards.  The Kill arm's
delayed process exit is an external effect. -/
def backtesterHandle (env : BtEnv) (s : BacktesterState) :
    Command → Response × BacktesterState
  | Command.Ping => (Response.Pong [uuidRender s.uuid], s)
  | Command.Type => (Response.Info "Backtester", s)
  | Command.StartBacktest definition =>
    (match env.parseDef definition with
     | Except.error e =>
       (Response.Error ("Can't parse backtest defition from String: " ++ e), s)
     | Except.ok defn =>
       match start_backtest env s defn with
       | (Except.ok uuid, s1) => (Response.Info (uuidRender uuid), s1)
       | (Except.error err, s1) => (Response.Error err, s1))
  | Command.Kill =>
    (Response.Info "Backtester will self-destruct in 3 seconds.", s)
  | Command.PauseBacktest uuid =>
    (match send_backtest_cmd s uuid BacktestCommand.Pause with
     | Except.ok s1 => (Response.Ok, s1)
     | Except.error _ => (Response.Error "No backtest with that uuid!", s))
  | Command.ResumeBacktest uuid =>
    (match send_backtest_cmd s uuid BacktestCommand.Resume with
     | Except.ok s1 => (Response.Ok, s1)
     | Except.error _ => (Response.Error "No backtest with that uuid!", s))
  | Command.StopBacktest uuid =>
    (match send_backtest_cmd s uuid BacktestCommand.Stop with
     | Except.ok s1 => (Response.Ok, remove_backtest s1 uuid)
     | Except.error _ => (Response.Error "No backtest with that uuid!", s))
  | Command.ListBacktests =>
    (match env.serHandles s.running_backtests with
     | Except.ok msg => (Response.Info msg, s)
     | Except.error _ =>
       (Response.Error "Unable to convert backtest list into String.", s))
  | Command.SpawnSimbroker settings =>
    (let r := init_simbroker env s settings
     (Response.Info (uuidRender r.1), r.2))
  | Command.ListSimbrokers =>
    (Response.Info (env.serStrings (s.simbrokers.map (fun kv => uuidRender kv.1))), s)
  | _ => (Response.Error "Backtester doesn't recognize that command.", s)

/-- One iteration of Backtester::listen for one parsed command: the
response is wrapped with exactly the correlation id of the request and
published. -/
def backtesterStep (env : BtEnv) (s : BacktesterState) (wc : WrappedCommand) :
    WrappedResponse × BacktesterState :=
  let r := backtesterHandle env s wc.cmd
  (r.1.wrap wc.uuid, r.2)

/-- The Backtester::listen loop over a list of inbound messages,
returning the published wrapped responses in order.  On a message that
fails to parse, listen prints and returns, so processing stops with no
reply for that message and none for any later one. -/
def backtesterProcess (env : BtEnv) (s : BacktesterState) :
    List Json → List WrappedResponse
  | [] => []
  | m :: rest =>
    match WrappedCommand.fromJson m with
    | none => []
    | some wc =>
      let r := backtesterStep env s wc
      r.1 :: backtesterProcess env r.2 rest

/-- Represents an instance of a platform module (struct Instance). -/
structure Instance where
  instance_type : String
  uuid : Uuid
deriving DecidableEq

/-- External effect of the spawner outside this model: the serde
serialization of an Instance used by census (the error side carries
the already formatted status text). -/
structure SpEnv where
  serInstance : Instance → Except String String

/-- Mutable state of the InstanceManager: its own id and the living
instance list, plus a log of commands sent point-to-point through the
CommandServer (target channel name, command). -/
structure SpawnerState where
  uuid : Uuid
  living : List Instance
  sent : List (String × Command)

/-- InstanceManager::add_instance. -/
def add_instance (s : SpawnerState) (inst : Instance) : SpawnerState :=
  { s with living := s.living ++ [inst] }

/-- The serialization loop of InstanceManager::census: the first
failing instance aborts with its error text. -/
def censusPartials (env : SpEnv) : List Instance → Except String (List String)
  | [] => Except.ok []
  | inst :: rest =>
    match env.serInstance inst with
    | Except.error e => Except.error e
    | Except.ok ser => (censusPartials env rest).map (fun l => ser :: l)

/-- InstanceManager::census: serialize every living instance and join
them into a bracketed comma-separated list. -/
def census (env : SpEnv) (s : SpawnerState) : Response :=
  match censusPartials env s.living with
  | Except.error e => Response.Error e
  | Except.ok partials =>
    Response.Info ("[" ++ String.intercalate ", " partials ++ "]")

/-- InstanceManager::kill_all: drain the living list, sending Kill to
each drained instance's personal channel. -/
def kill_all (s : SpawnerState) : Response × SpawnerState :=
  (Response.Ok,
   { s with living := [],
            sent := s.sent ++ s.living.map
              (fun inst => (uuidRender inst.uuid, Command.Kill)) })

/-- InstanceManager::handle_command dispatch.  The Kill arm's delayed
process exit and the process spawns of the Spawn arms are external
effects; each spawn arm replies Ok (registration happens later via
Ready). -/
def spawnerHandle (env : SpEnv) (s : SpawnerState) : Command → Response × SpawnerState
  | Command.Ping => (Response.Pong [uuidRender s.uuid], s)
  | Command.Kill => (Response.Info "Shutting down in 3 seconds...", s)
  | Command.Type => (Response.Info "Spawner", s)
  | Command.Ready instance_type uuid =>
    (Response.Ok, add_instance s { instance_type := instance_type, uuid := uuid })
  | Command.KillAllInstances => kill_all s
  | Command.Census => (census env s, s)
  | Command.SpawnMM => (Response.Ok, s)
  | Command.SpawnOptimizer _ => (Response.Ok, s)
  | Command.SpawnTickParser _ => (Response.Ok, s)
  | Command.SpawnBacktester => (Response.Ok, s)
  | Command.SpawnFxcmDataDownloader => (Response.Ok, s)
  | _ => (Response.Error "Command not accepted by the instance spawner", s)

/-- One iteration of InstanceManager::listen for one parsed command:
handle_command fulfills the oneshot and the result is wrapped with the
request's correlation id and published. -/
def spawnerStep (env : SpEnv) (s : SpawnerState) (wc : WrappedCommand) :
    WrappedResponse × SpawnerState :=
  let r := spawnerHandle env s wc.cmd
  (r.1.wrap wc.uuid, r.2)

/-- The InstanceManager::listen loop over a list of inbound messages:
a message that fails to parse is logged and skipped, and the loop
continues with the next message. -/
def spawnerProcess (env : SpEnv) (s : SpawnerState) : List Json → List WrappedResponse
  | [] => []
  | m :: rest =>
    match WrappedCommand.fromJson m with
    | none => spawnerProcess env s rest
    | some wc =>
      let r := spawnerStep env s wc
      r.1 :: spawnerProcess env r.2 rest

/-- The Pong check of get_missing_instance's inner loop: a Pong whose
first argument equals the instance's hyphenated uuid; an args-less
Pong or any other response only logs. -/
def pongMatches (inst : Instance) (r : Response) : Bool :=
  match r with
  | Response.Pong args =>
    match args.head? with
    | some a => decide (uuidRender inst.uuid = a)
    | none => false
  | _ => false

/-- InstanceManager::get_missing_instance: the first expected instance
with no matching Pong among the responses. -/
def get_missing_instance (living : List Instance) (responses : List Response) :
    Option Instance :=
  living.find? (fun inst => ! responses.any (pongMatches inst))

/-- InstanceManager::remove_instance: the index loop records every
matching index without breaking, so the last matching index is the one
removed. -/
def remove_instance (living : List Instance) (uuid : Uuid) : List Instance :=
  match ((living.enum.filter (fun p => p.2.uuid = uuid)).map
      (fun p => p.1)).getLast? with
  | some i => living.eraseIdx i
  | none => living

/-- One iteration of the heartbeat loop in InstanceManager::init:
given the Ping broadcast responses, find the first missing instance;
when one is found, deregister it and confirm through a directed Type
query, whose outcome is the typeResult argument (none models a failed
execute).  An Info reply reinstates the instance with the reported
kind; any other outcome leaves it deregistered (the TODO respawn never
happens).  Returns the living list afterwards together with the
directed commands sent during the iteration. -/
def heartbeatIteration (living : List Instance) (responses : List Response)
    (typeResult : Option Response) : List Instance × List (Uuid × Command) :=
  match get_missing_instance living responses with
  | none => (living, [])
  | some dead =>
    let living1 := remove_instance living dead.uuid
    match typeResult with
    | some (Response.Info info) =>
      (living1 ++ [{ instance_type := info, uuid := dead.uuid }],
       [(dead.uuid, Command.Type)])
    | some _ => (living1, [(dead.uuid, Command.Type)])
    | none => (living1, [(dead.uuid, Command.Type)])

def uuid0 : Uuid := ⟨0, by norm_num⟩

def uuid1 : Uuid := ⟨1, by norm_num⟩

/-- A trivial oracle environment used to evaluate the backtester loop
at concrete inputs. -/
def btEnv0 : BtEnv :=
  { parseDef := fun _ => Except.error "e",
    tickstream := fun _ => Except.ok (),
    serHandles := fun _ => Except.ok "[]",
    serStrings := fun _ => "[]",
    fresh := uuid1 }

/-- A trivial oracle environment for the spawner loop. -/
def spEnv0 : SpEnv := { serInstance := fun _ => Except.ok "{}" }

/-- A fresh backtester state. -/
def bt0 : BacktesterState :=
  { uuid := uuid0, running_backtests := [], simbrokers := [], controlLog := [] }

/-- A fresh spawner state. -/
def sp0 : SpawnerState := { uuid := uuid0, living := [], sent := [] }

/-- A registered handle used by the C6 witness. -/
def handle0 : BacktestHandle :=
  { symbol := "EURUSD", backtest_type := BacktestType.Live,
    data_source := DataSource.Random, endpoint := DataDest.Null }

/-- A backtester state with one registered handle under uuid1. -/
def bt1 : BacktesterState :=
  { uuid := uuid0, running_backtests := [(uuid1, handle0)], simbrokers := [],
    controlLog := [] }

/-! ## Proofs -/

lemma hexVal_hexChar {d : Nat} (hd : d < 16) : hexVal (hexChar d) = some d := by
  interval_cases d <;> decide

lemma hexChar_ne_hyphen {d : Nat} (hd : d < 16) : hexChar d ≠ '-' := by
  interval_cases d <;> decide

lemma uuidChars_mem {n : Nat} {c : Char} (hc : c ∈ uuidChars n) :
    ∃ d, d < 16 ∧ c = hexChar d := by
  unfold uuidChars at hc
  rw [List.mem_reverse, List.mem_map] at hc
  obtain ⟨d, hd, hcd⟩ := hc
  refine ⟨d, ?_, hcd.symm⟩
  rcases List.mem_append.mp hd with h | h
  · exact Nat.digits_lt_base (by norm_num) h
  · rw [List.eq_of_mem_replicate h]; norm_num

lemma digits16_len_le {n : Nat} (hn : n < 2 ^ 128) : (Nat.digits 16 n).length ≤ 32 := by
  rcases Nat.eq_zero_or_pos n with h0 | h0
  · subst h0; simp
  · have hlog : Nat.log 16 n < 32 := by
      apply Nat.log_lt_of_lt_pow (by omega)
      calc n < 2 ^ 128 := hn
        _ = 16 ^ 32 := by norm_num
    rw [Nat.digits_len 16 n (by norm_num) (by omega)]
    omega

lemma allHex_map_hexChar {l : List Nat} (hl : ∀ d ∈ l, d < 16) :
    allHex (l.map hexChar) = some l := by
  induction l with
  | nil => rfl
  | cons d rest ih =>
    have hd : d < 16 := hl d (by simp)
    have hrest : allHex (rest.map hexChar) = some rest :=
      ih (fun x hx => hl x (by simp [hx]))
    simp [allHex, hexVal_hexChar hd, hrest]

lemma ofDigits_replicate_zero (b k : Nat) :
    Nat.ofDigits b (List.replicate k 0) = 0 := by
  induction k with
  | zero => rfl
  | succ m ih => simp [List.replicate_succ, Nat.ofDigits_cons, ih]

lemma filter_hyphenate (cs : List Char) (hcs : ∀ c ∈ cs, c ≠ '-') :
    (hyphenate cs).filter (fun c => c ≠ '-') = cs := by
  have hsub : ∀ l : List Char, l.Sublist cs →
      l.filter (fun c => c ≠ '-') = l := by
    intro l hls
    rw [List.filter_eq_self]
    intro a ha
    simp [hcs a (hls.mem ha)]
  have hsplit : hyphenate cs = cs.take 8 ++ (['-'] ++ ((cs.drop 8).take 4
      ++ (['-'] ++ ((cs.drop 12).take 4 ++ (['-'] ++ ((cs.drop 16).take 4
      ++ (['-'] ++ cs.drop 20))))))) := by
    simp [hyphenate]
  have hdash : List.filter (fun c => (c ≠ '-' : Prop)) ['-'] = ([] : List Char) := by
    decide
  rw [hsplit]
  simp only [List.filter_append, hdash, List.nil_append]
  rw [hsub _ (List.take_sublist 8 cs),
      hsub _ ((List.take_sublist 4 _).trans (List.drop_sublist 8 cs)),
      hsub _ ((List.take_sublist 4 _).trans (List.drop_sublist 12 cs)),
      hsub _ ((List.take_sublist 4 _).trans (List.drop_sublist 16 cs)),
      hsub _ (List.drop_sublist 20 cs)]
  have hd16 : (cs.drop 16).take 4 ++ cs.drop 20 = cs.drop 16 := by
    have := List.take_append_drop 4 (cs.drop 16)
    rwa [List.drop_drop] at this
  have hd12 : (cs.drop 12).take 4 ++ cs.drop 16 = cs.drop 12 := by
    have := List.take_append_drop 4 (cs.drop 12)
    rwa [List.drop_drop] at this
  have hd8 : (cs.drop 8).take 4 ++ cs.drop 12 = cs.drop 8 := by
    have := List.take_append_drop 4 (cs.drop 8)
    rwa [List.drop_drop] at this
  rw [hd16, hd12, hd8, List.take_append_drop]

/-- Parsing inverts rendering for every 128-bit Uuid value. -/
theorem uuidParse_uuidRender (u : Uuid) : uuidParse (uuidRender u) = some u := by
  obtain ⟨n, hn⟩ := u
  have hchars : ∀ c ∈ uuidChars n, c ≠ '-' := by
    intro c hc
    obtain ⟨d, hd, hcd⟩ := uuidChars_mem hc
    exact hcd ▸ hexChar_ne_hyphen hd
  have htolist : (uuidRender ⟨n, hn⟩).toList = hyphenate (uuidChars n) := rfl
  have hchars_eq : uuidChars n =
      ((Nat.digits 16 n ++ List.replicate (32 - (Nat.digits 16 n).length) 0).reverse).map
        hexChar := by
    unfold uuidChars
    rw [List.map_reverse]
  have hrev_mem : ∀ d ∈ (Nat.digits 16 n
      ++ List.replicate (32 - (Nat.digits 16 n).length) 0).reverse, d < 16 := by
    intro d hd
    rcases List.mem_append.mp (List.mem_reverse.mp hd) with h | h
    · exact Nat.digits_lt_base (by norm_num) h
    · rw [List.eq_of_mem_replicate h]; norm_num
  have hlen : ((Nat.digits 16 n
      ++ List.replicate (32 - (Nat.digits 16 n).length) 0).reverse).length = 32 := by
    have := digits16_len_le hn
    simp only [List.length_reverse, List.length_append, List.length_replicate]
    omega
  have hval : Nat.ofDigits 16 (((Nat.digits 16 n
      ++ List.replicate (32 - (Nat.digits 16 n).length) 0).reverse).reverse) = n := by
    rw [List.reverse_reverse, Nat.ofDigits_append, ofDigits_replicate_zero]
    simpa using Nat.ofDigits_digits 16 n
  unfold uuidParse
  rw [htolist, filter_hyphenate _ hchars, hchars_eq, allHex_map_hexChar hrev_mem]
  simp only [hlen, if_pos, hval]
  simp only [hn, dite_true]

lemma uuid_fromJson_toJson (u : Uuid) : Uuid.fromJson u.toJson = some u := by
  simp [Uuid.toJson, Uuid.fromJson, uuidParse_uuidRender]

lemma histTickDst_fromJson_toJson (d : HistTickDst) :
    HistTickDst.fromJson d.toJson = some d := by
  cases d <;> rfl

lemma simBrokerSettings_fromJson_toJson (s : SimBrokerSettings) :
    SimBrokerSettings.fromJson s.toJson = some s := rfl

lemma command_fromJson_toJson (c : Command) :
    Command.fromJson c.toJson = some c := by
  cases c
  case Ready instance_type u =>
    show (uuidParse (uuidRender u)).map (fun x => Command.Ready instance_type x)
      = some (Command.Ready instance_type u)
    rw [uuidParse_uuidRender]
    rfl
  case KillInstance u =>
    show (uuidParse (uuidRender u)).map Command.KillInstance
      = some (Command.KillInstance u)
    rw [uuidParse_uuidRender]
    rfl
  case PauseBacktest u =>
    show (uuidParse (uuidRender u)).map Command.PauseBacktest
      = some (Command.PauseBacktest u)
    rw [uuidParse_uuidRender]
    rfl
  case ResumeBacktest u =>
    show (uuidParse (uuidRender u)).map Command.ResumeBacktest
      = some (Command.ResumeBacktest u)
    rw [uuidParse_uuidRender]
    rfl
  case StopBacktest u =>
    show (uuidParse (uuidRender u)).map Command.StopBacktest
      = some (Command.StopBacktest u)
    rw [uuidParse_uuidRender]
    rfl
  case DownloadTicks start_time end_time symbol d =>
    show (HistTickDst.fromJson d.toJson).map
        (Command.DownloadTicks start_time end_time symbol)
      = some (Command.DownloadTicks start_time end_time symbol d)
    rw [histTickDst_fromJson_toJson]
    rfl
  case DownloadComplete start_time end_time symbol d =>
    show (HistTickDst.fromJson d.toJson).map
        (Command.DownloadComplete start_time end_time symbol)
      = some (Command.DownloadComplete start_time end_time symbol d)
    rw [histTickDst_fromJson_toJson]
    rfl
  all_goals rfl

lemma stringsFromJson_map (l : List String) :
    stringsFromJson (l.map Json.str) = some l := by
  induction l with
  | nil => rfl
  | cons s rest ih => simp [stringsFromJson, ih]

lemma response_fromJson_toJson (r : Response) :
    Response.fromJson r.toJson = some r := by
  cases r <;> simp [Response.toJson, Response.fromJson, stringsFromJson_map]

lemma wrappedCommand_fromJson_toJson (wc : WrappedCommand) :
    WrappedCommand.fromJson wc.toJson = some wc := by
  simp [WrappedCommand.toJson, WrappedCommand.fromJson, uuid_fromJson_toJson,
    command_fromJson_toJson]

lemma wrappedResponse_fromJson_toJson (wr : WrappedResponse) :
    WrappedResponse.fromJson wr.toJson = some wr := by
  simp [WrappedResponse.toJson, WrappedResponse.fromJson, uuid_fromJson_toJson,
    response_fromJson_toJson]

lemma deliveredTicks_take {defn : BacktestDefinition} {n : Nat}
    (hmax : defn.max_tick_n = some n) (hts : defn.max_timestamp = none) :
    ∀ (ticks : List Tick) (i : Nat), i < n → n ≤ i + ticks.length →
      deliveredTicks defn i ticks = ticks.take (n - i) := by
  intro ticks
  induction ticks with
  | nil =>
    intro i hlt hle
    simp at hle
    omega
  | cons t rest ih =>
    intro i hlt hle
    have hcheck : check_early_exit t defn (i + 1) = decide (n ≤ i + 1) := by
      simp [check_early_exit, hmax, hts]
    rw [deliveredTicks, hcheck]
    by_cases hn : n ≤ i + 1
    · have hni : n - i = 1 := by omega
      simp [hn, hni]
    · have hrec : deliveredTicks defn (i + 1) rest = rest.take (n - (i + 1)) := by
        apply ih
        · omega
        · simp at hle
          omega
      have hni : n - i = (n - (i + 1)) + 1 := by omega
      simp [hn, hrec, hni, List.take_succ_cons]

lemma spanReached_single (period : Nat) (t : Tick) :
    spanReached period [t] = decide (period ≤ 0) := by
  simp [spanReached]

lemma trimLoop_ok {period : Nat} (hp : 0 < period) :
    ∀ (l : List Tick) (lp : Tick), l ≠ [] →
      ∃ lp2 r, trimLoop period l lp = Except.ok (lp2, r) ∧ r ≠ [] ∧
        r.getLast? = l.getLast? ∧ r <:+ l ∧ spanReached period r = false := by
  intro l
  induction l with
  | nil => intro lp h; exact absurd rfl h
  | cons f rest ih =>
    intro lp _
    by_cases hspan : spanReached period (f :: rest) = true
    · have hrest : rest ≠ [] := by
        intro hnil
        subst hnil
        rw [spanReached_single] at hspan
        simp at hspan
        omega
      obtain ⟨lp2, r, hok, hne, hlast, hsuf, hsp⟩ := ih f hrest
      refine ⟨lp2, r, ?_, hne, ?_, hsuf.trans (List.suffix_cons f rest), hsp⟩
      · rw [trimLoop, if_pos hspan]
        exact hok
      · rw [hlast]
        cases rest with
        | nil => exact absurd rfl hrest
        | cons b bs => simp
    · refine ⟨lp, f :: rest, ?_, by simp, rfl, List.suffix_refl _, by simpa using hspan⟩
      rw [trimLoop, if_neg hspan]

lemma pairSums_tsum_pos {a b : Tick} {rest : List Tick}
    (hab : a.timestamp < b.timestamp) : 0 < (pairSums (a :: b :: rest)).2 := by
  rw [pairSums]
  simp only []
  omega

lemma pairSums_eq_spec : ∀ l : List Tick, pairSums l = (specPSum l, specTSum l)
  | [] => rfl
  | [_] => rfl
  | a :: b :: rest => by
    have ih := pairSums_eq_spec (b :: rest)
    rw [pairSums, ih]
    simp [specPSum, specTSum]
    constructor <;> omega

lemma chain'_snoc {l : List Tick} {t : Tick}
    (hchain : List.Chain' (fun a b => a.timestamp < b.timestamp) l)
    (hord : ∀ last, l.getLast? = some last → last.timestamp < t.timestamp) :
    List.Chain' (fun a b => a.timestamp < b.timestamp) (l ++ [t]) := by
  rw [List.chain'_append]
  refine ⟨hchain, List.chain'_singleton t, ?_⟩
  intro x hx y hy
  simp only [List.head?_cons, Option.mem_def, Option.some.injEq] at hy
  subst hy
  exact hord x hx

lemma inOrder_last {s : SimpleMovingAverage} {t : Tick}
    (hord : s.inOrder t = true) :
    ∀ last, s.ticks.getLast? = some last → last.timestamp < t.timestamp := by
  intro last hlast
  unfold SimpleMovingAverage.inOrder at hord
  rw [hlast] at hord
  simpa using hord

lemma trim_phase (s : SimpleMovingAverage) (t : Tick) (hp : 0 < s.period)
    (hchain : List.Chain' (fun a b => a.timestamp < b.timestamp) s.ticks)
    (hord : s.inOrder t = true) :
    ∃ ref1 ticks2,
      (if spanReached s.period (s.ticks ++ [t]) then
        trimLoop s.period (s.ticks ++ [t]) Tick.null
      else Except.ok (s.ref_tick, s.ticks ++ [t])) = Except.ok (ref1, ticks2) ∧
      ticks2 ≠ [] ∧ ticks2.getLast? = some t ∧
      List.Chain' (fun a b => a.timestamp < b.timestamp) ticks2 ∧
      spanReached s.period ticks2 = false := by
  have hchain1 : List.Chain' (fun a b => a.timestamp < b.timestamp) (s.ticks ++ [t]) :=
    chain'_snoc hchain (inOrder_last hord)
  by_cases hspan : spanReached s.period (s.ticks ++ [t]) = true
  · obtain ⟨lp2, r, htrim, hne, hlast, hsuf, hsp⟩ :=
      trimLoop_ok hp (s.ticks ++ [t]) Tick.null (by simp)
    refine ⟨lp2, r, ?_, hne, ?_, hchain1.suffix hsuf, hsp⟩
    · rw [if_pos hspan]
      exact htrim
    · rw [hlast, List.getLast?_concat]
  · refine ⟨s.ref_tick, s.ticks ++ [t], ?_, by simp, List.getLast?_concat _,
      hchain1, by simpa using hspan⟩
    rw [if_neg hspan]

lemma average_ok {p : Nat} {r : List Tick} {ref1 : Tick}
    (hp : 0 < p) (hlen : 2 ≤ r.length)
    (hchain : List.Chain' (fun a b => a.timestamp < b.timestamp) r) :
    SimpleMovingAverage.average ⟨p, r, ref1⟩ =
      Except.ok (if ref1.bid ≠ 0
        then (specPSum r + ref1.mid * (p - specTSum r)) / p
        else specPSum r / specTSum r) := by
  match r, hlen with
  | a :: b :: rest, _ =>
    have hab : a.timestamp < b.timestamp := (List.chain'_cons.mp hchain).1
    have htpos : 0 < (pairSums (a :: b :: rest)).2 := pairSums_tsum_pos hab
    have hps := pairSums_eq_spec (a :: b :: rest)
    have hp0 : ¬ (p = 0) := by omega
    unfold SimpleMovingAverage.average
    simp only [List.head?_cons]
    by_cases href : ref1.bid ≠ 0
    · simp only [if_pos href, hps, if_neg hp0]
      congr 1
      rw [Nat.mul_comm]
    · have ht0 : ¬ (specTSum (a :: b :: rest) = 0) := by
        rw [hps] at htpos
        omega
      simp only [if_neg href, hps, if_neg ht0]

lemma average_tick_ok {p : Nat} {r : List Tick} {ref1 : Tick}
    (hp : 0 < p) (hlen : 2 ≤ r.length)
    (hchain : List.Chain' (fun a b => a.timestamp < b.timestamp) r) :
    ∃ tv, SimpleMovingAverage.average_tick ⟨p, r, ref1⟩ = Except.ok tv := by
  match r, hlen with
  | a :: b :: rest, _ =>
    have hab : a.timestamp < b.timestamp := (List.chain'_cons.mp hchain).1
    have hts : (pairSums3 (a :: b :: rest)).2.2 =
        (b.timestamp - a.timestamp) + (pairSums3 (b :: rest)).2.2 := by
      rw [pairSums3]
      simp only []
      omega
    have htpos : 0 < (pairSums3 (a :: b :: rest)).2.2 := by
      rw [hts]
      omega
    unfold SimpleMovingAverage.average_tick
    simp only [List.head?_cons]
    have hgl : (a :: b :: rest).getLast? = some ((a :: b :: rest).getLast (by simp)) :=
      List.getLast?_eq_getLast _ _
    rw [hgl]
    have hp0 : ¬ (p = 0) := by omega
    by_cases href : ref1.bid ≠ 0
    · simp only [if_pos href, if_neg hp0]
      exact ⟨_, rfl⟩
    · simp only [if_neg href]
      rw [if_neg (by omega)]
      exact ⟨_, rfl⟩

lemma push_ok (s : SimpleMovingAverage) (t : Tick)
    (hp : 0 < s.period)
    (hchain : List.Chain' (fun a b => a.timestamp < b.timestamp) s.ticks)
    (hord : s.inOrder t = true) :
    ∃ v s2, s.push t = Except.ok (v, s2) ∧
      s2.period = s.period ∧
      s2.ticks ≠ [] ∧
      s2.ticks.getLast? = some t ∧
      List.Chain' (fun a b => a.timestamp < b.timestamp) s2.ticks ∧
      spanReached s.period s2.ticks = false ∧
      (∀ tk, s2.ticks = [tk] → v = tk.mid) ∧
      (2 ≤ s2.ticks.length →
        v = (if s2.ref_tick.bid ≠ 0
             then (specPSum s2.ticks + s2.ref_tick.mid * (s.period - specTSum s2.ticks))
                    / s.period
             else specPSum s2.ticks / specTSum s2.ticks)) := by
  obtain ⟨ref1, ticks2, htrim, hne, hlast, hchain2, hsp⟩ := trim_phase s t hp hchain hord
  unfold SimpleMovingAverage.push
  rw [if_pos hord]
  simp only [htrim]
  match ticks2, hne with
  | [tk], _ =>
    refine ⟨tk.mid, ⟨s.period, [tk], ref1⟩, ?_, rfl, by simp, hlast, hchain2, hsp, ?_, ?_⟩
    · rfl
    · intro tk2 htk2
      simp at htk2
      rw [htk2]
    · intro hlen
      simp at hlen
  | a :: b :: rest, _ =>
    have hlen1 : ¬ ((a :: b :: rest).length = 1) := by simp
    rw [if_neg hlen1]
    have havg := @average_ok s.period (a :: b :: rest) ref1 hp (by simp) hchain2
    rw [havg]
    refine ⟨_, ⟨s.period, a :: b :: rest, ref1⟩, rfl, rfl, by simp, hlast, hchain2, hsp,
      ?_, ?_⟩
    · intro tk htk
      simp at htk
    · intro _
      rfl

lemma push_tick_ok (s : SimpleMovingAverage) (t : Tick)
    (hp : 0 < s.period)
    (hchain : List.Chain' (fun a b => a.timestamp < b.timestamp) s.ticks)
    (hord : s.inOrder t = true) :
    ∃ v s2, s.push_tick t = Except.ok (v, s2) ∧
      s2.period = s.period ∧
      s2.ticks ≠ [] ∧
      s2.ticks.getLast? = some t ∧
      List.Chain' (fun a b => a.timestamp < b.timestamp) s2.ticks ∧
      spanReached s.period s2.ticks = false := by
  obtain ⟨ref1, ticks2, htrim, hne, hlast, hchain2, hsp⟩ := trim_phase s t hp hchain hord
  unfold SimpleMovingAverage.push_tick
  rw [if_pos hord]
  simp only [htrim]
  match ticks2, hne with
  | [tk], _ =>
    exact ⟨tk, ⟨s.period, [tk], ref1⟩, rfl, rfl, by simp, hlast, hchain2, hsp⟩
  | a :: b :: rest, _ =>
    have hlen1 : ¬ ((a :: b :: rest).length = 1) := by simp
    rw [if_neg hlen1]
    obtain ⟨tv, htv⟩ := @average_tick_ok s.period (a :: b :: rest) ref1 hp (by simp) hchain2
    rw [htv]
    exact ⟨tv, ⟨s.period, a :: b :: rest, ref1⟩, rfl, rfl, by simp, hlast, hchain2, hsp⟩

lemma runCalls_inv (p : Nat) (hp : 0 < p) :
    ∀ (calls : List (Bool × Tick)) (s : SimpleMovingAverage),
      s.period = p →
      List.Chain' (fun a b => a.timestamp < b.timestamp) s.ticks →
      (s.ticks = [] ∨ spanReached p s.ticks = false) →
      (∀ last, s.ticks.getLast? = some last →
        ∀ c, calls.head? = some c → last.timestamp < c.2.timestamp) →
      List.Chain' (· < ·) (calls.map (fun c => c.2.timestamp)) →
      ∃ s2, s.runCalls calls = Except.ok s2 ∧ s2.period = p ∧
        (s.ticks ≠ [] ∨ calls ≠ [] → s2.ticks ≠ [] ∧
          spanReached p s2.ticks = false) ∧
        (s.ticks = [] ∧ calls = [] → s2 = s) := by
  intro calls
  induction calls with
  | nil =>
    intro s hper hchain hspan hlink hctimes
    refine ⟨s, rfl, hper, ?_, fun _ => rfl⟩
    intro h
    have hne : s.ticks ≠ [] := by
      rcases h with h | h
      · exact h
      · exact absurd rfl h
    rcases hspan with h1 | h1
    · exact absurd h1 hne
    · exact ⟨hne, h1⟩
  | cons c rest ih =>
    intro s hper hchain hspan hlink hctimes
    obtain ⟨useTickForm, t⟩ := c
    have hord : s.inOrder t = true := by
      unfold SimpleMovingAverage.inOrder
      cases hgl : s.ticks.getLast? with
      | none => rfl
      | some last =>
        simpa using hlink last hgl (useTickForm, t) rfl
    have hstep : ∃ s1,
        (if useTickForm then (s.push_tick t).map (fun q => q.2)
         else (s.push t).map (fun q => q.2)) = Except.ok s1 ∧
        s1.period = p ∧ s1.ticks ≠ [] ∧ s1.ticks.getLast? = some t ∧
        List.Chain' (fun a b => a.timestamp < b.timestamp) s1.ticks ∧
        spanReached p s1.ticks = false := by
      cases useTickForm with
      | true =>
        obtain ⟨v, s1, hok, hper1, hne1, hlast1, hchain1, hsp1⟩ :=
          push_tick_ok s t (hper ▸ hp) hchain hord
        exact ⟨s1, by simp [hok, Except.map], hper ▸ hper1, hne1, hlast1, hchain1,
          hper ▸ hsp1⟩
      | false =>
        obtain ⟨v, s1, hok, hper1, hne1, hlast1, hchain1, hsp1, _, _⟩ :=
          push_ok s t (hper ▸ hp) hchain hord
        exact ⟨s1, by simp [hok, Except.map], hper ▸ hper1, hne1, hlast1, hchain1,
          hper ▸ hsp1⟩
    obtain ⟨s1, hok, hper1, hne1, hlast1, hchain1, hsp1⟩ := hstep
    have hlink1 : ∀ last, s1.ticks.getLast? = some last →
        ∀ c2, rest.head? = some c2 → last.timestamp < c2.2.timestamp := by
      intro last hlast c2 hc2
      rw [hlast1] at hlast
      cases hlast
      cases rest with
        | nil => simp at hc2
        | cons d ds =>
          simp at hc2
          subst hc2
          have := (List.chain'_cons.mp (by simpa using hctimes)).1
          simpa using this
    have hctimes1 : List.Chain' (· < ·) (rest.map (fun c => c.2.timestamp)) := by
      have := hctimes
      simp only [List.map_cons] at this
      exact (List.chain'_cons'.mp this).2
    obtain ⟨s2, hrun, hper2, hne2, _⟩ :=
      ih s1 hper1 hchain1 (Or.inr hsp1) hlink1 hctimes1
    refine ⟨s2, ?_, hper2, ?_, ?_⟩
    · rw [SimpleMovingAverage.runCalls, hok]
      exact hrun
    · intro _
      cases rest with
      | nil =>
        obtain ⟨hrunnil, -⟩ := And.intro hrun hne2
        rw [SimpleMovingAverage.runCalls] at hrunnil
        cases hrunnil
        exact ⟨hne1, hsp1⟩
      | cons d ds =>
        exact hne2 (Or.inr (by simp))
    · intro hcontra
      simp at hcontra

/-- C1: for every Command value and every Response value, decoding the
encoding yields the value back; the encoders keep the variant tag as
the JSON key (or bare string for unit variants) and every integer and
string field is restored exactly. -/
theorem c1_codec_roundtrip :
    (∀ c : Command, Command.fromJson c.toJson = some c) ∧
    (∀ r : Response, Response.fromJson r.toJson = some r) :=
  ⟨command_fromJson_toJson, response_fromJson_toJson⟩

/-- C2: check_early_exit is true exactly when a set max_tick_n has been
reached by the count or a set max_timestamp by the tick's timestamp;
and because each tick is delivered to the sink before the predicate is
checked, with max_tick_n = n (and no timestamp bound) the pump
delivers exactly the first n ticks, so the n-th tick is the last one
emitted. -/
theorem c2_exit_predicate :
    (∀ (t : Tick) (defn : BacktestDefinition) (i : Nat),
      check_early_exit t defn i = true ↔
        ((∃ n, defn.max_tick_n = some n ∧ n ≤ i) ∨
         (∃ m, defn.max_timestamp = some m ∧ m ≤ t.timestamp))) ∧
    (∀ (defn : BacktestDefinition) (n : Nat) (ticks : List Tick),
      defn.max_tick_n = some n → defn.max_timestamp = none →
      1 ≤ n → n ≤ ticks.length →
      deliveredTicks defn 0 ticks = ticks.take n) := by
  constructor
  · intro t defn i
    cases hn : defn.max_tick_n with
    | some n =>
      cases hm : defn.max_timestamp with
      | some m =>
        simp only [check_early_exit, hn, hm, Option.isSome_some, Option.getD_some,
          Bool.true_and]
        by_cases h1 : n ≤ i <;> by_cases h2 : m ≤ t.timestamp <;>
          simp [h1, h2]
      | none =>
        simp only [check_early_exit, hn, hm, Option.isSome_some, Option.isSome_none,
          Option.getD_some, Bool.true_and, Bool.false_and]
        by_cases h1 : n ≤ i <;> simp [h1]
    | none =>
      cases hm : defn.max_timestamp with
      | some m =>
        simp only [check_early_exit, hn, hm, Option.isSome_some, Option.isSome_none,
          Option.getD_some, Bool.true_and, Bool.false_and]
        by_cases h2 : m ≤ t.timestamp <;> simp [h2]
      | none =>
        simp [check_early_exit, hn, hm]
  · intro defn n ticks hmax hts hn hlen
    have h := deliveredTicks_take hmax hts ticks 0 (by omega) (by omega)
    simpa using h

/-- Witness for C2: with max_tick_n = 2 over a three-tick stream the
delivered prefix is exactly the first two ticks. -/
theorem c2_exit_predicate_witness :
    deliveredTicks
      { start_time := none, max_tick_n := some 2, max_timestamp := none,
        symbol := "TEST", backtest_type := BacktestType.Fast 0,
        data_source := DataSource.Random, data_dest := DataDest.Null,
        broker_settings := ⟨0⟩ } 0
      [⟨1, 2, 1⟩, ⟨3, 4, 2⟩, ⟨5, 6, 3⟩] = [⟨1, 2, 1⟩, ⟨3, 4, 2⟩] := by
  have h := c2_exit_predicate.2
    { start_time := none, max_tick_n := some 2, max_timestamp := none,
      symbol := "TEST", backtest_type := BacktestType.Fast 0,
      data_source := DataSource.Random, data_dest := DataDest.Null,
      broker_settings := ⟨0⟩ } 2
    [⟨1, 2, 1⟩, ⟨3, 4, 2⟩, ⟨5, 6, 3⟩] rfl rfl (by decide) (by decide)
  simpa using h

/-- C3: a push whose tick is in order (on a positive period and an
in-order window, as every reachable SMA has) succeeds; when one tick
remains after appending and trimming the result is that tick's mid,
otherwise it is p_sum / t_sum over the adjacent pairs of the retained
window, where a reference tick with non-zero bid adds
reference.mid * (period - t_sum) to p_sum and makes t_sum the
period. -/
theorem c3_sma_push_formula (s : SimpleMovingAverage) (t : Tick)
    (hp : 0 < s.period)
    (hchain : List.Chain' (fun a b => a.timestamp < b.timestamp) s.ticks)
    (hord : s.inOrder t = true) :
    ∃ v s2, s.push t = Except.ok (v, s2) ∧
      (∀ tk, s2.ticks = [tk] → v = tk.mid) ∧
      (2 ≤ s2.ticks.length →
        v = (if s2.ref_tick.bid ≠ 0
             then (specPSum s2.ticks + s2.ref_tick.mid * (s.period - specTSum s2.ticks))
                    / s.period
             else specPSum s2.ticks / specTSum s2.ticks)) := by
  obtain ⟨v, s2, hok, _, _, _, _, _, h1, h2⟩ := push_ok s t hp hchain hord
  exact ⟨v, s2, hok, h1, h2⟩

/-- Witness for C3: a concrete push on a two-tick window with a set
reference tick. -/
theorem c3_sma_push_formula_witness :
    ∃ v s2,
      SimpleMovingAverage.push ⟨3, [⟨10, 12, 5⟩, ⟨20, 22, 6⟩], ⟨8, 8, 3⟩⟩ ⟨30, 32, 7⟩
        = Except.ok (v, s2) ∧
      (∀ tk, s2.ticks = [tk] → v = tk.mid) ∧
      (2 ≤ s2.ticks.length →
        v = (if s2.ref_tick.bid ≠ 0
             then (specPSum s2.ticks + s2.ref_tick.mid * (3 - specTSum s2.ticks)) / 3
             else specPSum s2.ticks / specTSum s2.ticks)) :=
  c3_sma_push_formula ⟨3, [⟨10, 12, 5⟩, ⟨20, 22, 6⟩], ⟨8, 8, 3⟩⟩ ⟨30, 32, 7⟩
    (by decide)
    (List.chain'_cons.mpr ⟨by decide, List.chain'_singleton _⟩)
    (by decide)

lemma inOrder_false {s : SimpleMovingAverage} {t last : Tick}
    (hlast : s.ticks.getLast? = some last) (hle : t.timestamp ≤ last.timestamp) :
    s.inOrder t = false := by
  unfold SimpleMovingAverage.inOrder
  rw [hlast]
  simpa using hle

/-- C7 counterexample: on a fresh SMA with period 0 the very first push
satisfies the in-order precondition (there is no previous tick) and the
assertion does not fire, yet push returns no value: the trim loop pops
the deque empty and the next is_overflown check panics unwrapping the
front. -/
theorem c7_counterexample :
    (SimpleMovingAverage.new 0).inOrder ⟨1, 1, 1⟩ = true ∧
    (SimpleMovingAverage.new 0).push ⟨1, 1, 1⟩
      = Except.error PanicReason.unwrapEmpty := by
  constructor <;> rfl

/-- C7 (amended): pushing a tick whose timestamp is at most the
previous one makes the out-of-order assertion fire in both push and
push_tick; and provided the period is positive, any sequence of push or
push_tick calls with strictly increasing timestamps from a fresh SMA
always returns values (no assert fires and no other panic occurs). -/
theorem c7_out_of_order_detected :
    (∀ (s : SimpleMovingAverage) (t last : Tick),
      s.ticks.getLast? = some last → t.timestamp ≤ last.timestamp →
      s.push t = Except.error PanicReason.assertOutOfOrder ∧
      s.push_tick t = Except.error PanicReason.assertOutOfOrder) ∧
    (∀ (p : Nat) (calls : List (Bool × Tick)), 0 < p →
      List.Chain' (· < ·) (calls.map (fun c => c.2.timestamp)) →
      ∃ s2, (SimpleMovingAverage.new p).runCalls calls = Except.ok s2) := by
  constructor
  · intro s t last hlast hle
    have hfalse := inOrder_false hlast hle
    constructor
    · unfold SimpleMovingAverage.push
      rw [hfalse]
      rfl
    · unfold SimpleMovingAverage.push_tick
      rw [hfalse]
      rfl
  · intro p calls hp hinc
    obtain ⟨s2, hrun, -⟩ :=
      runCalls_inv p hp calls (SimpleMovingAverage.new p) rfl
        (by simp [SimpleMovingAverage.new]) (Or.inl rfl)
        (by intro last h; simp [SimpleMovingAverage.new] at h) hinc
    exact ⟨s2, hrun⟩

/-- Witness for C7 (amended): a concrete out-of-order push is rejected
by the assert, and a concrete in-order push/push_tick sequence on a
positive period returns values throughout. -/
theorem c7_out_of_order_detected_witness :
    (SimpleMovingAverage.push ⟨2, [⟨1, 1, 5⟩], Tick.null⟩ ⟨1, 1, 5⟩
        = Except.error PanicReason.assertOutOfOrder ∧
      SimpleMovingAverage.push_tick ⟨2, [⟨1, 1, 5⟩], Tick.null⟩ ⟨1, 1, 5⟩
        = Except.error PanicReason.assertOutOfOrder) ∧
    (∃ s2, (SimpleMovingAverage.new 2).runCalls
        [(false, ⟨1, 1, 1⟩), (true, ⟨2, 2, 2⟩)] = Except.ok s2) :=
  ⟨c7_out_of_order_detected.1 ⟨2, [⟨1, 1, 5⟩], Tick.null⟩ ⟨1, 1, 5⟩ ⟨1, 1, 5⟩
      rfl (by decide),
   c7_out_of_order_detected.2 2 [(false, ⟨1, 1, 1⟩), (true, ⟨2, 2, 2⟩)] (by decide)
      (List.chain'_cons.mpr ⟨by decide, List.chain'_singleton _⟩)⟩

/-- C9: for a positive period, after any non-empty sequence of push or
push_tick calls with strictly increasing timestamps from a fresh SMA,
every call succeeds, the tick deque is non-empty and the span between
the newest and oldest retained timestamps is strictly below the
period. -/
theorem c9_sma_window_invariant (p : Nat) (calls : List (Bool × Tick))
    (hp : 0 < p) (hne : calls ≠ [])
    (hinc : List.Chain' (· < ·) (calls.map (fun c => c.2.timestamp))) :
    ∃ s2, (SimpleMovingAverage.new p).runCalls calls = Except.ok s2 ∧
      s2.ticks ≠ [] ∧
      ∀ f b, s2.ticks.head? = some f → s2.ticks.getLast? = some b →
        b.timestamp - f.timestamp < p := by
  obtain ⟨s2, hrun, hper, hprops, -⟩ :=
    runCalls_inv p hp calls (SimpleMovingAverage.new p) rfl
      (by simp [SimpleMovingAverage.new]) (Or.inl rfl)
      (by intro last h; simp [SimpleMovingAverage.new] at h) hinc
  obtain ⟨hne2, hspan⟩ := hprops (Or.inr hne)
  refine ⟨s2, hrun, hne2, ?_⟩
  intro f b hf hb
  unfold spanReached at hspan
  rw [hf, hb] at hspan
  simpa using hspan

/-- Witness for C9 at a concrete mixed push/push_tick sequence. -/
theorem c9_sma_window_invariant_witness :
    ∃ s2, (SimpleMovingAverage.new 5).runCalls
        [(false, ⟨2, 4, 10⟩), (true, ⟨3, 5, 12⟩), (false, ⟨4, 6, 17⟩)]
      = Except.ok s2 ∧
      s2.ticks ≠ [] ∧
      ∀ f b, s2.ticks.head? = some f → s2.ticks.getLast? = some b →
        b.timestamp - f.timestamp < 5 :=
  c9_sma_window_invariant 5
    [(false, ⟨2, 4, 10⟩), (true, ⟨3, 5, 12⟩), (false, ⟨4, 6, 17⟩)]
    (by decide) (by decide)
    (List.chain'_cons.mpr ⟨by decide,
      List.chain'_cons.mpr ⟨by decide, List.chain'_singleton _⟩⟩)

lemma removeFirstPeriod_id {p : Nat} :
    ∀ {m : List SimpleMovingAverage}, (∀ x ∈ m, x.period ≠ p) →
      removeFirstPeriod p m = m := by
  intro m
  induction m with
  | nil => intro _; rfl
  | cons s rest ih =>
    intro h
    rw [removeFirstPeriod, if_neg (h s (by simp)), ih (fun x hx => h x (by simp [hx]))]

lemma removeFirstPeriod_countP (p : Nat) :
    ∀ m : List SimpleMovingAverage,
      List.countP (fun x => x.period = p) m ≤
        List.countP (fun x => x.period = p) (removeFirstPeriod p m) + 1 := by
  intro m
  induction m with
  | nil => simp
  | cons s rest ih =>
    rw [removeFirstPeriod]
    by_cases h : s.period = p
    · rw [if_pos h]
      simp [List.countP_cons, h]
    · rw [if_neg h]
      simp only [List.countP_cons]
      have hs : (decide (s.period = p)) = false := by simp [h]
      simp only [hs]
      omega

/-- C10: SMAList does not key its members uniquely by period: add
always appends a fresh SMA even when the period is already present;
remove deletes exactly the first matching member and leaves the list
unchanged when no member matches; hence after add p; add p; remove p
a member with period p remains. -/
theorem c10_smalist_duplicates :
    (∀ (l : SMAList) (p : Nat),
      (l.add p).smas = l.smas ++ [SimpleMovingAverage.new p]) ∧
    (∀ (l : SMAList) (p : Nat),
      (∀ x ∈ l.smas, x.period ≠ p) → l.remove p = l) ∧
    (∀ (p : Nat) (pre post : List SimpleMovingAverage) (x : SimpleMovingAverage),
      (∀ y ∈ pre, y.period ≠ p) → x.period = p →
      removeFirstPeriod p (pre ++ x :: post) = pre ++ post) ∧
    (∀ (l : SMAList) (p : Nat),
      ∃ x ∈ ((l.add p).add p |>.remove p).smas, x.period = p) := by
  refine ⟨fun l p => rfl, ?_, ?_, ?_⟩
  · intro l p h
    unfold SMAList.remove
    rw [removeFirstPeriod_id h]
  · intro p pre
    induction pre with
    | nil =>
      intro post x _ hx
      rw [List.nil_append, removeFirstPeriod, if_pos hx, List.nil_append]
    | cons y pre' ih =>
      intro post x hpre hx
      rw [List.cons_append, removeFirstPeriod, if_neg (hpre y (by simp)),
        ih post x (fun z hz => hpre z (by simp [hz])) hx, List.cons_append]
  · intro l p
    have h2 : List.countP (fun x => x.period = p) ((l.add p).add p).smas =
        List.countP (fun x => x.period = p) l.smas + 2 := by
      show List.countP _ ((l.smas ++ [SimpleMovingAverage.new p])
        ++ [SimpleMovingAverage.new p]) = _
      rw [List.countP_append, List.countP_append]
      simp [SimpleMovingAverage.new]
    have h3 := removeFirstPeriod_countP p ((l.add p).add p).smas
    rw [h2] at h3
    have hpos : 0 < List.countP (fun x => x.period = p)
        ((((l.add p).add p).remove p).smas) := by
      show 0 < List.countP (fun x => x.period = p)
        (removeFirstPeriod p ((l.add p).add p).smas)
      omega
    obtain ⟨x, hx, hxp⟩ := List.countP_pos_iff.mp hpos
    exact ⟨x, hx, of_decide_eq_true hxp⟩

/-- Witness for C10: concrete removals on small lists. -/
theorem c10_smalist_duplicates_witness :
    (SMAList.remove ⟨[SimpleMovingAverage.new 3]⟩ 5
      = ⟨[SimpleMovingAverage.new 3]⟩) ∧
    removeFirstPeriod 5
        ([SimpleMovingAverage.new 3] ++ SimpleMovingAverage.new 5 :: [])
      = [SimpleMovingAverage.new 3] ++ [] ∧
    (∃ x ∈ ((SMAList.add (SMAList.add ⟨[]⟩ 7) 7).remove 7).smas, x.period = 7) :=
  ⟨c10_smalist_duplicates.2.1 ⟨[SimpleMovingAverage.new 3]⟩ 5 (by decide),
   c10_smalist_duplicates.2.2.1 5 [SimpleMovingAverage.new 3] []
      (SimpleMovingAverage.new 5) (by decide) rfl,
   c10_smalist_duplicates.2.2.2 ⟨[]⟩ 7⟩

/-- C4 counterexample: a malformed message (the bare JSON string
"garbage") stops the backtester's listen loop: a well-formed Ping
following it is never answered, while the same Ping alone is answered
with a Pong.  The claim that every recipient continues processing
subsequent inbound messages fails for the backtester, which returns
out of listen on the parse error. -/
theorem c4_counterexample :
    backtesterProcess btEnv0 bt0
      [Json.str "garbage", WrappedCommand.toJson ⟨uuid1, Command.Ping⟩] = [] ∧
    backtesterProcess btEnv0 bt0 [WrappedCommand.toJson ⟨uuid1, Command.Ping⟩]
      = [⟨uuid1, Response.Pong [uuidRender uuid0]⟩] := by
  constructor
  · rfl
  · conv_lhs => rw [backtesterProcess]
    rw [wrappedCommand_fromJson_toJson]
    rfl

/-- C4 (amended): on a malformed message no reply is generated by
either recipient and the message is logged; the spawner skips it and
continues with the remaining messages, while the backtester returns
out of its listen loop, so it produces no further replies at all. -/
theorem c4_parse_error_no_reply (env : BtEnv) (senv : SpEnv)
    (bs : BacktesterState) (ss : SpawnerState) (m : Json) (rest : List Json)
    (hbad : WrappedCommand.fromJson m = none) :
    backtesterProcess env bs (m :: rest) = [] ∧
    spawnerProcess senv ss (m :: rest) = spawnerProcess senv ss rest := by
  constructor
  · conv_lhs => rw [backtesterProcess]
    rw [hbad]
  · conv_lhs => rw [spawnerProcess]
    rw [hbad]

/-- Witness for C4 (amended) at a concrete malformed message. -/
theorem c4_parse_error_no_reply_witness :
    backtesterProcess btEnv0 bt0 [Json.num 3] = [] ∧
    spawnerProcess spEnv0 sp0 [Json.num 3] = spawnerProcess spEnv0 sp0 [] :=
  c4_parse_error_no_reply btEnv0 spEnv0 bt0 sp0 (Json.num 3) [] rfl

/-- C5: every reply either recipient publishes for an inbound wrapped
command carries exactly the correlation id of that command:
Response::wrap copies the given uuid, and both listen loops wrap the
computed response with the request's uuid for every command variant. -/
theorem c5_correlation_id_preserved :
    (∀ (r : Response) (u : Uuid), (r.wrap u).uuid = u) ∧
    (∀ (env : BtEnv) (s : BacktesterState) (wc : WrappedCommand),
      (backtesterStep env s wc).1.uuid = wc.uuid) ∧
    (∀ (env : SpEnv) (s : SpawnerState) (wc : WrappedCommand),
      (spawnerStep env s wc).1.uuid = wc.uuid) :=
  ⟨fun _ _ => rfl, fun _ _ _ => rfl, fun _ _ _ => rfl⟩

lemma lookup_filter_ne {β : Type} (l : List (Uuid × β)) (u : Uuid) :
    (l.filter (fun kv => kv.1 ≠ u)).lookup u = none := by
  induction l with
  | nil => rfl
  | cons kv rest ih =>
    obtain ⟨k, v⟩ := kv
    by_cases h : k = u
    · simpa [List.filter_cons, h] using ih
    · have hbeq : (u == k) = false := beq_eq_false_iff_ne.mpr (Ne.symm h)
      have hkeep : (decide (¬(k, v).1 = u)) = true := by simp [h]
      simp only [List.filter_cons, hkeep, if_pos rfl]
      simp only [List.lookup, hbeq]
      exact ih

/-- C6: with a registered handle, StopBacktest forwards the Stop event
and then removes the handle (absent afterwards), replying Ok;
PauseBacktest and ResumeBacktest forward their event and leave the
handle map unchanged; with an unknown id all three reply Error and
leave the whole state unchanged. -/
theorem c6_backtest_control (env : BtEnv) (s : BacktesterState) (u : Uuid) :
    ((∃ h, s.running_backtests.lookup u = some h) →
      (backtesterHandle env s (Command.StopBacktest u)).1 = Response.Ok ∧
      (backtesterHandle env s (Command.StopBacktest u)).2.running_backtests.lookup u
        = none ∧
      (backtesterHandle env s (Command.StopBacktest u)).2.controlLog
        = s.controlLog ++ [(u, BacktestCommand.Stop)] ∧
      (backtesterHandle env s (Command.PauseBacktest u)).1 = Response.Ok ∧
      (backtesterHandle env s (Command.PauseBacktest u)).2.running_backtests
        = s.running_backtests ∧
      (backtesterHandle env s (Command.PauseBacktest u)).2.controlLog
        = s.controlLog ++ [(u, BacktestCommand.Pause)] ∧
      (backtesterHandle env s (Command.ResumeBacktest u)).1 = Response.Ok ∧
      (backtesterHandle env s (Command.ResumeBacktest u)).2.running_backtests
        = s.running_backtests ∧
      (backtesterHandle env s (Command.ResumeBacktest u)).2.controlLog
        = s.controlLog ++ [(u, BacktestCommand.Resume)]) ∧
    (s.running_backtests.lookup u = none →
      (backtesterHandle env s (Command.StopBacktest u))
        = (Response.Error "No backtest with that uuid!", s) ∧
      (backtesterHandle env s (Command.PauseBacktest u))
        = (Response.Error "No backtest with that uuid!", s) ∧
      (backtesterHandle env s (Command.ResumeBacktest u))
        = (Response.Error "No backtest with that uuid!", s)) := by
  constructor
  · rintro ⟨h, hl⟩
    have hsend : ∀ c, send_backtest_cmd s u c
        = Except.ok { s with controlLog := s.controlLog ++ [(u, c)] } := by
      intro c
      unfold send_backtest_cmd
      rw [hl]
    refine ⟨?_, ?_, ?_, ?_, ?_, ?_, ?_, ?_, ?_⟩ <;>
      simp [backtesterHandle, hsend, remove_backtest, lookup_filter_ne]
    all_goals exact fun a b _ hne => Ne.symm hne
  · intro hl
    have hsend : ∀ c, send_backtest_cmd s u c = Except.error () := by
      intro c
      unfold send_backtest_cmd
      rw [hl]
    refine ⟨?_, ?_, ?_⟩ <;> simp [backtesterHandle, hsend]

/-- Witness for C6: both the registered-id case (under uuid1) and the
unknown-id case (under uuid0) at a concrete state. -/
theorem c6_backtest_control_witness :
    ((backtesterHandle btEnv0 bt1 (Command.StopBacktest uuid1)).1 = Response.Ok ∧
      (backtesterHandle btEnv0 bt1 (Command.StopBacktest uuid1)).2.running_backtests.lookup
        uuid1 = none ∧
      (backtesterHandle btEnv0 bt1 (Command.StopBacktest uuid1)).2.controlLog
        = bt1.controlLog ++ [(uuid1, BacktestCommand.Stop)] ∧
      (backtesterHandle btEnv0 bt1 (Command.PauseBacktest uuid1)).1 = Response.Ok ∧
      (backtesterHandle btEnv0 bt1 (Command.PauseBacktest uuid1)).2.running_backtests
        = bt1.running_backtests ∧
      (backtesterHandle btEnv0 bt1 (Command.PauseBacktest uuid1)).2.controlLog
        = bt1.controlLog ++ [(uuid1, BacktestCommand.Pause)] ∧
      (backtesterHandle btEnv0 bt1 (Command.ResumeBacktest uuid1)).1 = Response.Ok ∧
      (backtesterHandle btEnv0 bt1 (Command.ResumeBacktest uuid1)).2.running_backtests
        = bt1.running_backtests ∧
      (backtesterHandle btEnv0 bt1 (Command.ResumeBacktest uuid1)).2.controlLog
        = bt1.controlLog ++ [(uuid1, BacktestCommand.Resume)]) ∧
    ((backtesterHandle btEnv0 bt1 (Command.StopBacktest uuid0))
        = (Response.Error "No backtest with that uuid!", bt1) ∧
      (backtesterHandle btEnv0 bt1 (Command.PauseBacktest uuid0))
        = (Response.Error "No backtest with that uuid!", bt1) ∧
      (backtesterHandle btEnv0 bt1 (Command.ResumeBacktest uuid0))
        = (Response.Error "No backtest with that uuid!", bt1)) :=
  ⟨(c6_backtest_control btEnv0 bt1 uuid1).1 ⟨handle0, by rfl⟩,
   (c6_backtest_control btEnv0 bt1 uuid0).2 (by rfl)⟩

lemma enumFrom_filter_none {u : Uuid} :
    ∀ (post : List Instance) (k : Nat), (∀ x ∈ post, x.uuid ≠ u) →
      (List.enumFrom k post).filter (fun p => p.2.uuid = u) = [] := by
  intro post
  induction post with
  | nil => intro k _; rfl
  | cons a rest ih =>
    intro k h
    have ha : (decide (((k, a) : Nat × Instance).2.uuid = u)) = false := by
      simp [h a (by simp)]
    rw [List.enumFrom, List.filter_cons, ha]
    simp only [Bool.false_eq_true, if_false]
    exact ih (k + 1) (fun x hx => h x (by simp [hx]))

lemma enumFrom_filter_unique {u : Uuid} {d : Instance} (hd : d.uuid = u) :
    ∀ (pre : List Instance), (∀ x ∈ pre, x.uuid ≠ u) →
      ∀ (post : List Instance) (k : Nat), (∀ x ∈ post, x.uuid ≠ u) →
      (List.enumFrom k (pre ++ d :: post)).filter (fun p => p.2.uuid = u)
        = [(k + pre.length, d)] := by
  intro pre
  induction pre with
  | nil =>
    intro _ post k hpost
    have hdk : (decide (((k, d) : Nat × Instance).2.uuid = u)) = true := by
      simp [hd]
    rw [List.nil_append, List.enumFrom, List.filter_cons, hdk]
    simp only [if_pos rfl]
    rw [enumFrom_filter_none post (k + 1) hpost]
    simp
  | cons a pre' ih =>
    intro hpre post k hpost
    have ha : (decide (((k, a) : Nat × Instance).2.uuid = u)) = false := by
      simp [hpre a (by simp)]
    rw [List.cons_append, List.enumFrom, List.filter_cons, ha]
    simp only [Bool.false_eq_true, if_false]
    rw [ih (fun x hx => hpre x (by simp [hx])) post (k + 1) hpost]
    have : k + 1 + pre'.length = k + (a :: pre').length := by
      simp
      omega
    rw [this]

lemma eraseIdx_append_length {α : Type} :
    ∀ (pre : List α) (x : α) (post : List α),
      (pre ++ x :: post).eraseIdx pre.length = pre ++ post := by
  intro pre
  induction pre with
  | nil => intro x post; rfl
  | cons a pre' ih =>
    intro x post
    rw [List.cons_append, List.length_cons, List.eraseIdx_cons_succ, ih,
      List.cons_append]

lemma remove_instance_unique {u : Uuid} {d : Instance} (hd : d.uuid = u)
    (pre post : List Instance)
    (hpre : ∀ x ∈ pre, x.uuid ≠ u) (hpost : ∀ x ∈ post, x.uuid ≠ u) :
    remove_instance (pre ++ d :: post) u = pre ++ post := by
  unfold remove_instance
  have henum : (pre ++ d :: post).enum = List.enumFrom 0 (pre ++ d :: post) := rfl
  rw [henum, enumFrom_filter_unique hd pre hpre post 0 hpost]
  simp only [List.map_cons, List.map_nil, List.getLast?_singleton, Nat.zero_add]
  exact eraseIdx_append_length pre d post

/-- C8 counterexample: instance uuid1 misses a Pong (empty response
set); its confirming Type query resolves successfully, but with Ok
rather than Info, and the instance is nevertheless left out of the
living list at the end of the iteration — a dead declaration without a
failed follow-up query. -/
theorem c8_counterexample :
    (heartbeatIteration [⟨"MM", uuid1⟩] [] (some Response.Ok)).1 = [] := by rfl

/-- C8 (amended): a heartbeat iteration never sends Kill; when the
first missing instance's confirming Type query resolves with
Info(kind) the instance is reinstated and present in the living list
at the end of the iteration; when the query fails or resolves with any
non-Info response the instance (unique by its uuid in the living list)
is left removed. -/
theorem c8_heartbeat_gating (living : List Instance) (responses : List Response)
    (typeResult : Option Response) :
    (∀ u, (u, Command.Kill) ∉ (heartbeatIteration living responses typeResult).2) ∧
    (∀ dead info, get_missing_instance living responses = some dead →
      typeResult = some (Response.Info info) →
      ∃ inst ∈ (heartbeatIteration living responses typeResult).1,
        inst.uuid = dead.uuid) ∧
    (∀ dead pre post d0, get_missing_instance living responses = some dead →
      (typeResult = none ∨
        ∃ r, typeResult = some r ∧ ∀ info, r ≠ Response.Info info) →
      living = pre ++ d0 :: post → d0.uuid = dead.uuid →
      (∀ x ∈ pre, x.uuid ≠ dead.uuid) → (∀ x ∈ post, x.uuid ≠ dead.uuid) →
      ∀ inst ∈ (heartbeatIteration living responses typeResult).1,
        inst.uuid ≠ dead.uuid) := by
  refine ⟨?_, ?_, ?_⟩
  · intro u
    unfold heartbeatIteration
    cases hmiss : get_missing_instance living responses with
    | none => simp
    | some dead =>
      cases typeResult with
      | none => simp
      | some r => cases r <;> simp
  · intro dead info hmiss htype
    unfold heartbeatIteration
    rw [hmiss, htype]
    exact ⟨⟨info, dead.uuid⟩, by simp, rfl⟩
  · intro dead pre post d0 hmiss htype hsplit hd0 hpre hpost
    unfold heartbeatIteration
    rw [hmiss]
    have hrem : remove_instance living dead.uuid = pre ++ post := by
      rw [hsplit]
      exact remove_instance_unique hd0 pre post hpre hpost
    have hclean : ∀ inst, inst ∈ pre ++ post → inst.uuid ≠ dead.uuid := by
      intro inst hmem
      rcases List.mem_append.mp hmem with hm | hm
      · exact hpre inst hm
      · exact hpost inst hm
    rcases htype with hnone | ⟨r, hr, hrinfo⟩
    · rw [hnone]
      simp only [hrem]
      exact hclean
    · rw [hr]
      cases r with
      | Info info => exact absurd rfl (hrinfo info)
      | Ok => simp only [hrem]; exact hclean
      | Error status => simp only [hrem]; exact hclean
      | Pong args => simp only [hrem]; exact hclean

/-- Witness for C8 (amended) at a concrete one-instance living list:
no Kill is sent, an Info reply reinstates, a Pong reply (successful
but not Info) leaves the instance removed. -/
theorem c8_heartbeat_gating_witness :
    (∀ u, (u, Command.Kill) ∉
      (heartbeatIteration [⟨"MM", uuid1⟩] [] (some (Response.Info "MM"))).2) ∧
    (∃ inst ∈ (heartbeatIteration [⟨"MM", uuid1⟩] []
        (some (Response.Info "MM"))).1, inst.uuid = uuid1) ∧
    (∀ inst ∈ (heartbeatIteration [⟨"MM", uuid1⟩] []
        (some (Response.Pong ["x"]))).1, inst.uuid ≠ uuid1) :=
  ⟨(c8_heartbeat_gating [⟨"MM", uuid1⟩] [] (some (Response.Info "MM"))).1,
   (c8_heartbeat_gating [⟨"MM", uuid1⟩] [] (some (Response.Info "MM"))).2.1
     ⟨"MM", uuid1⟩ "MM" (by rfl) rfl,
   (c8_heartbeat_gating [⟨"MM", uuid1⟩] [] (some (Response.Pong ["x"]))).2.2
     ⟨"MM", uuid1⟩ [] [] ⟨"MM", uuid1⟩ (by rfl)
     (Or.inr ⟨Response.Pong ["x"], rfl, fun info => by simp⟩)
     rfl rfl (by simp) (by simp)⟩
